import Mathlib

/-!
Verification of the Unraid Docker Controller core services
(port allocator, build pipeline, lifecycle orchestrator, reconciliation)
against a shallow embedding of the Go source.

Conventions of the embedding:
* machine integers are `Nat` (all values involved are small and non-negative);
* Go strings are Lean `String`; Go byte-slicing `s[:8]` is modelled by
  `String.take` together with an explicit out-of-bounds (panic) branch;
* fallible calls return `Except`/`Option`;
* external collaborators (docker runtime, git, database row, TCP bind probe)
  are oracles passed in as explicit parameters;
* each orchestrator operation returns the resulting persisted database row and
  a trace of the container-runtime actions it performed.
-/

namespace NasController

/-! ## Port allocator (`internal/services/port_allocator` part of build_service.go) -/

def PortRangeStart : Nat := 13001

def PortRangeEnd : Nat := 13999

/-- The allocator's view of the world: the used-port records returned by
`db.GetUsedPorts()` (success case) and the TCP bind probe
(`bindable port = true` iff `net.Listen` on 127.0.0.1:port succeeds). -/
structure PortEnv where
  usedPorts : List Nat
  bindable : Nat → Bool

/-- `isPortInUse`: the probe — listen succeeds ⇒ not in use. -/
def isPortInUse (env : PortEnv) (port : Nat) : Bool :=
  !env.bindable port

/-- `IsPortAvailable`: not present in the used-port records and bindable. -/
def IsPortAvailable (env : PortEnv) (port : Nat) : Bool :=
  !env.usedPorts.contains port && !(isPortInUse env port)

/-- The ascending scan loop `for port := lo; port <= hi; port++` shared by
`AllocatePort` and `FindNextAvailable`, with the iteration count made
explicit as fuel (`hi + 1 - lo` iterations starting at `lo`). -/
def scanFrom (env : PortEnv) (port : Nat) : Nat → Option Nat
  | 0 => none
  | fuel + 1 =>
    if env.usedPorts.contains port then scanFrom env (port + 1) fuel
    else if !(isPortInUse env port) then some port
    else scanFrom env (port + 1) fuel

/-- The scan over an inclusive range `[lo, hi]`. -/
def scanPorts (env : PortEnv) (lo hi : Nat) : Option Nat :=
  scanFrom env lo (hi + 1 - lo)

/-- `AllocatePort`: scan the fixed managed range; `none` models the
"no available ports in range" error. -/
def AllocatePort (env : PortEnv) : Option Nat :=
  scanPorts env PortRangeStart PortRangeEnd

/-- `FindNextAvailable`: try the preferred port first (only when it lies in
the managed range), else fall back to the ascending scan. -/
def FindNextAvailable (env : PortEnv) (preferred : Nat) : Option Nat :=
  if PortRangeStart ≤ preferred ∧ preferred ≤ PortRangeEnd then
    if !env.usedPorts.contains preferred && !(isPortInUse env preferred) then some preferred
    else scanPorts env PortRangeStart PortRangeEnd
  else scanPorts env PortRangeStart PortRangeEnd

/-! ## Data model (`internal/models/app.go`, `internal/database` row) -/

inductive AppStatus where
  | stopped
  | running
  | building
  | buildFailed
  | starting
  | error
deriving DecidableEq, Repr

/-- The `App` record (`models.App`). Timestamps are abstract `Nat` instants,
`Option Nat` for the nullable `*time.Time` fields; the string-to-string maps
are association lists. -/
structure App where
  id : String
  name : String
  slug : String
  description : String
  icon : String
  repoURL : String
  branch : String
  lastCommit : String
  lastPulled : Option Nat
  dockerfilePath : String
  buildContext : String
  buildArgs : List (String × String)
  imageName : String
  containerName : String
  containerID : String
  internalPort : Nat
  externalPort : Nat
  restartPolicy : String
  env : List (String × String)
  volumes : List String
  status : AppStatus
  lastBuild : Option Nat
  lastBuildDuration : String
  lastBuildSuccess : Bool
  imageSize : Nat
  createdAt : Nat
  updatedAt : Nat
deriving DecidableEq, Repr

/-- `DB.UpdateApp` on the app's row: the UPDATE statement writes every column
from the in-memory record except the primary key and `created_at` (the schema
also has no `volumes` column), and sets `updated_at = time.Now()`. `row` is
the stored row before the update, `ap` the record being written, `now` the
write time; the result is the stored row afterwards. -/
def dbUpdateApp (row ap : App) (now : Nat) : App :=
  { ap with
    id := row.id
    createdAt := row.createdAt
    volumes := row.volumes
    updatedAt := now }

/-! ## Container runtime oracle (`internal/docker`) -/

/-- One container-runtime side effect performed by an orchestrator operation. -/
inductive DockerAction where
  | stopContainer (id : String)
  | removeContainer (id : String)
  | createContainer (name : String)
  | startContainer (id : String)
deriving DecidableEq, Repr

/-- The docker client, as an oracle fixing the outcome of each call the
orchestrator makes. -/
structure Docker where
  getContainerByName : String → Option String
  stopOk : String → Bool
  createResult : String → Except String String
  startOk : String → Bool
  getContainerStatus : String → Option String
  getImageSize : String → Option Nat

/-! ## Build pipeline (`BuildService`, build_service.go) -/

/-- The shared build-pipeline state: the single system-wide
"a build is running" flag (the cancellation handle carries no
lifecycle information of its own and is omitted). -/
structure BuildSvc where
  building : Bool
deriving DecidableEq, Repr

/-- Result of one `BuildService.BuildApp` call: the returned error (if any),
the flag state after the call returns, and whether the external image builder
was actually invoked. -/
structure SvcBuildResult where
  res : Except String Unit
  svc : BuildSvc
  invoked : Bool
deriving Repr

/-- `BuildService.BuildApp`: atomically check-and-set the running flag
(fail fast when set), create the log file, invoke the builder, and clear the
flag on every exit path (the Go `defer`). `logOk` is the outcome of
`os.Create` on the log file and `builder` the outcome of
`dockerClient.BuildImage`. -/
def svcBuildApp (s : BuildSvc) (logOk : Bool) (builder : Except String Unit) :
    SvcBuildResult :=
  if s.building then
    { res := Except.error "another build is in progress", svc := s, invoked := false }
  else if !logOk then
    { res := Except.error "failed to create log file", svc := { building := false },
      invoked := false }
  else
    match builder with
    | Except.error e =>
      { res := Except.error e, svc := { building := false }, invoked := true }
    | Except.ok _ =>
      { res := Except.ok (), svc := { building := false }, invoked := true }

/-! ## Lifecycle orchestrator (`AppManager`, app.go) -/

/-- Result of one orchestrator operation on one app: the returned error (if
any), the app's database row after the operation, and the container-runtime
actions performed, in order. -/
structure OpResult where
  res : Except String Unit
  row : App
  acts : List DockerAction
deriving Repr

/-- `AppManager.StopApp` for an existing app (`GetApp` succeeded and returned
`row`): try to stop by the recorded container id, falling back to a lookup by
container name (all runtime errors ignored), then persist status `stopped`. -/
def StopApp (d : Docker) (row : App) (now : Nat) : OpResult :=
  let acts :=
    if row.containerID ≠ "" then
      if d.stopOk row.containerID then
        [DockerAction.stopContainer row.containerID]
      else
        match d.getContainerByName row.containerName with
        | some cid => [DockerAction.stopContainer row.containerID,
                       DockerAction.stopContainer cid]
        | none => [DockerAction.stopContainer row.containerID]
    else []
  { res := Except.ok ()
    row := dbUpdateApp row { row with status := AppStatus.stopped } now
    acts := acts }

/-- The tail of `AppManager.StartApp` after the port check: create the
container, persist `starting` with the new container id, start it, persist
`running` or `error`. `row` is the stored row (for `dbUpdateApp`), `a1` the
in-memory record (possibly carrying a reassigned port), `acts` the actions
performed so far. -/
def startCreatePhase (d : Docker) (row a1 : App) (now : Nat)
    (acts : List DockerAction) : OpResult :=
  match d.createResult a1.containerName with
  | Except.error e =>
    { res := Except.error ("failed to create container: " ++ e)
      row := dbUpdateApp row { a1 with status := AppStatus.error } now
      acts := acts ++ [DockerAction.createContainer a1.containerName] }
  | Except.ok cid =>
    let a2 := { a1 with containerID := cid, status := AppStatus.starting }
    if d.startOk cid then
      { res := Except.ok ()
        row := dbUpdateApp row { a2 with status := AppStatus.running } now
        acts := acts ++ [DockerAction.createContainer a1.containerName,
                         DockerAction.startContainer cid] }
    else
      { res := Except.error "failed to start container"
        row := dbUpdateApp row { a2 with status := AppStatus.error } now
        acts := acts ++ [DockerAction.createContainer a1.containerName,
                         DockerAction.startContainer cid] }

/-- `AppManager.StartApp` for an existing app: remove any orphan container of
the same name, reassign the external port via `FindNextAvailable` when the
configured one is no longer available (persisting the new port), then create
and start the container. -/
def StartApp (d : Docker) (env : PortEnv) (row : App) (now : Nat) : OpResult :=
  let cleanup :=
    match d.getContainerByName row.containerName with
    | some eid => [DockerAction.stopContainer eid, DockerAction.removeContainer eid]
    | none => []
  if IsPortAvailable env row.externalPort then
    startCreatePhase d row row now cleanup
  else
    match FindNextAvailable env row.externalPort with
    | none =>
      { res := Except.error "no available ports", row := row, acts := cleanup }
    | some p =>
      startCreatePhase d row { row with externalPort := p } now cleanup

/-- Result of one `AppManager.BuildApp` call: the returned error, the final
stored row, the rows persisted by each `db.UpdateApp` call in order, the
build-pipeline flag afterwards, and whether the image builder was invoked. -/
structure MgrBuildResult where
  res : Except String Unit
  row : App
  trace : List App
  svc : BuildSvc
  invoked : Bool
deriving Repr

/-- `AppManager.BuildApp` for an existing app: persist status `building`,
run the build pipeline, then persist the build metadata together with status
`stopped` (success, also refreshing the image size when the runtime reports
one) or `build-failed` (failure). `startTime`/`durStr` are the wall-clock
instant the build started and the human-readable duration. -/
def mgrBuildApp (d : Docker) (row : App) (s : BuildSvc) (logOk : Bool)
    (builder : Except String Unit) (startTime : Nat) (durStr : String)
    (now : Nat) : MgrBuildResult :=
  let a1 := { row with status := AppStatus.building }
  let db1 := dbUpdateApp row a1 now
  let r := svcBuildApp s logOk builder
  let a2 := { a1 with lastBuild := some startTime, lastBuildDuration := durStr }
  match r.res with
  | Except.error e =>
    let a3 := { a2 with status := AppStatus.buildFailed, lastBuildSuccess := false }
    { res := Except.error e, row := dbUpdateApp row a3 now
      trace := [db1, dbUpdateApp row a3 now], svc := r.svc, invoked := r.invoked }
  | Except.ok _ =>
    let a3 := { a2 with status := AppStatus.stopped, lastBuildSuccess := true }
    let a4 :=
      match d.getImageSize a3.imageName with
      | some sz => { a3 with imageSize := sz }
      | none => a3
    { res := Except.ok (), row := dbUpdateApp row a4 now
      trace := [db1, dbUpdateApp row a4 now], svc := r.svc, invoked := r.invoked }

/-- `models.AppManifest`. -/
structure AppManifest where
  name : String
  description : String
  icon : String
  defaultPort : Nat
  env : List (String × String)
  volumes : List String

/-- `models.CloneResult`. -/
structure CloneResult where
  slug : String
  name : String
  description : String
  hasDockerfile : Bool
  dockerfilePath : String
  manifest : Option AppManifest
  suggestedPort : Nat

/-- `models.ConfigureAppRequest`. -/
structure ConfigureAppRequest where
  name : String
  dockerfilePath : String
  buildContext : String
  internalPort : Nat
  externalPort : Nat
  env : List (String × String)
  buildArgs : List (String × String)
  volumes : List String

/-- Go map assignment `m[k] = v` on an association list. -/
def mapInsert (m : List (String × String)) (k v : String) :
    List (String × String) :=
  m.filter (fun p => p.1 != k) ++ [(k, v)]

/-- Copying one Go map into another, entry by entry. -/
def mapMerge (base upd : List (String × String)) : List (String × String) :=
  upd.foldl (fun m kv => mapInsert m kv.1 kv.2) base

/-- `AppManager.CreateApp`, from the point where a `CloneResult` is in hand
(either from a fresh clone or from the existing-repo fallback): allocate a
port, override it with the user-supplied external port when that one is
available, assemble the record with the configured defaults, and persist it.
`uuid` is the generated id, `commit` the (error-ignoring) `GetLastCommit`
result and `dbOk` the outcome of `db.CreateApp`. -/
def chosenPort (env : PortEnv) (config : ConfigureAppRequest) (port0 : Nat) :
    Nat :=
  if 0 < config.externalPort then
    if IsPortAvailable env config.externalPort then config.externalPort
    else port0
  else port0

def CreateApp (env : PortEnv) (cloneResult : CloneResult)
    (config : ConfigureAppRequest) (repoURL branch uuid commit : String)
    (dbOk : Bool) (now : Nat) : Except String App :=
  match AllocatePort env with
  | none => Except.error "failed to allocate port"
  | some port0 =>
    let port := chosenPort env config port0
    let name := if config.name ≠ "" then config.name else cloneResult.name
    let dockerfilePath :=
      if config.dockerfilePath ≠ "" then config.dockerfilePath
      else cloneResult.dockerfilePath
    let buildContext :=
      if config.buildContext ≠ "" then config.buildContext else "."
    let internalPort :=
      if 0 < config.internalPort then config.internalPort
      else
        match cloneResult.manifest with
        | some mf => if 0 < mf.defaultPort then mf.defaultPort else 80
        | none => 80
    let appEnv :=
      mapMerge
        (mapMerge []
          (match cloneResult.manifest with
           | some mf => mf.env
           | none => []))
        config.env
    let app : App :=
      { id := uuid
        name := name
        slug := cloneResult.slug
        description := cloneResult.description
        icon := ""
        repoURL := repoURL
        branch := branch
        lastCommit := commit
        lastPulled := some now
        dockerfilePath := dockerfilePath
        buildContext := buildContext
        buildArgs := config.buildArgs
        imageName := cloneResult.slug ++ ":latest"
        containerName := cloneResult.slug
        containerID := ""
        internalPort := internalPort
        externalPort := port
        restartPolicy := "unless-stopped"
        env := appEnv
        volumes := []
        status := AppStatus.stopped
        lastBuild := none
        lastBuildDuration := ""
        lastBuildSuccess := false
        imageSize := 0
        createdAt := now
        updatedAt := now }
    if dbOk then Except.ok app else Except.error "failed to save app"

/-! ## Reconciliation routine (`AppManager.ReconcileStates`) -/

/-- Step 1 of reconciliation for one app: when no container id is recorded but
a container name is, adopt the id of a live container of that name, if any. -/
def adoptContainerID (d : Docker) (row : App) : App :=
  if row.containerID = "" ∧ row.containerName ≠ "" then
    match d.getContainerByName row.containerName with
    | some cid => { row with containerID := cid }
    | none => row
  else row

/-- Reconciliation of one persisted app: adopt a container id by name, then
resolve the status against the runtime (query failure clears the id and
forces `stopped`; otherwise mirror the reported running state), and force
`running`/`starting` to `stopped` when no container id is known; persist. -/
def reconcileApp (d : Docker) (row : App) (now : Nat) : App :=
  let a0 := adoptContainerID d row
  let a1 :=
    if a0.containerID ≠ "" then
      match d.getContainerStatus a0.containerID with
      | none => { a0 with status := AppStatus.stopped, containerID := "" }
      | some st =>
        if st = "running" then { a0 with status := AppStatus.running }
        else { a0 with status := AppStatus.stopped }
    else
      if a0.status = AppStatus.running ∨ a0.status = AppStatus.starting then
        { a0 with status := AppStatus.stopped }
      else a0
  dbUpdateApp row a1 now

/-- `ReconcileStates`: one reconciliation pass over every persisted app. -/
def ReconcileStates (d : Docker) (rows : List App) (now : Nat) : List App :=
  rows.map (fun row => reconcileApp d row now)

/-! ## Pull-and-rebuild (`AppManager.PullAndRebuild`) -/

/-- Result of one `PullAndRebuild` call: returned error, final stored row,
build-pipeline flag, whether the image builder was invoked, and the
container-runtime actions performed. -/
structure PullResult where
  res : Except String Unit
  row : App
  svc : BuildSvc
  invoked : Bool
  acts : List DockerAction
deriving Repr

/-- `AppManager.PullAndRebuild` for an existing app: stop the container when
the app is `running`, pull (`pull` is the `GitService.PullRepo` outcome: the
full commit hash or an error), persist the truncated commit hash on the stale
in-memory copy, rebuild, and chain into `StartApp` when the app was running
before. The whole call returns `none` exactly when the Go code panics at
`commit[:8]` (pull succeeded with a hash shorter than 8). -/
def PullAndRebuild (d : Docker) (env : PortEnv) (row : App) (s : BuildSvc)
    (pull : Except String String) (logOk : Bool) (builder : Except String Unit)
    (startTime : Nat) (durStr : String) (now : Nat) : Option PullResult :=
  let stopRes :=
    if row.status = AppStatus.running then StopApp d row now
    else { res := Except.ok (), row := row, acts := [] }
  match pull with
  | Except.error e =>
    some { res := Except.error ("failed to pull repo: " ++ e), row := stopRes.row,
           svc := s, invoked := false, acts := stopRes.acts }
  | Except.ok commit =>
    if commit.length < 8 then
      none
    else
      let localApp := { row with lastCommit := commit.take 8, lastPulled := some now }
      let db2 := dbUpdateApp stopRes.row localApp now
      let b := mgrBuildApp d db2 s logOk builder startTime durStr now
      match b.res with
      | Except.error e =>
        some { res := Except.error e, row := b.row, svc := b.svc,
               invoked := b.invoked, acts := stopRes.acts }
      | Except.ok _ =>
        if row.status = AppStatus.running then
          let st := StartApp d env b.row now
          some { res := st.res, row := st.row, svc := b.svc,
                 invoked := b.invoked, acts := stopRes.acts ++ st.acts }
        else
          some { res := Except.ok (), row := b.row, svc := b.svc,
                 invoked := b.invoked, acts := stopRes.acts }

/-! ## Concrete fixtures used by counterexamples and witnesses -/

/-- A typical app record as the onboarding flow creates it. -/
def app0 : App :=
  { id := "app-1"
    name := "demo"
    slug := "demo"
    description := ""
    icon := ""
    repoURL := "https://example.com/demo.git"
    branch := "main"
    lastCommit := ""
    lastPulled := none
    dockerfilePath := "./Dockerfile"
    buildContext := "."
    buildArgs := []
    imageName := "demo:latest"
    containerName := "demo"
    containerID := ""
    internalPort := 80
    externalPort := 13001
    restartPolicy := "unless-stopped"
    env := []
    volumes := []
    status := AppStatus.stopped
    lastBuild := none
    lastBuildDuration := ""
    lastBuildSuccess := false
    imageSize := 0
    createdAt := 0
    updatedAt := 0 }

/-- A runtime with no containers at all: every lookup and action fails. -/
def dockerIdle : Docker :=
  { getContainerByName := fun _ => none
    stopOk := fun _ => false
    createResult := fun _ => Except.error "no docker"
    startOk := fun _ => false
    getContainerStatus := fun _ => none
    getImageSize := fun _ => none }

/-- A runtime holding one live running container `c1` named `demo`. -/
def dockerAdopt : Docker :=
  { getContainerByName := fun n => if n = "demo" then some "c1" else none
    stopOk := fun _ => true
    createResult := fun _ => Except.error "busy"
    startOk := fun _ => false
    getContainerStatus := fun i => if i = "c1" then some "running" else none
    getImageSize := fun _ => none }

/-- Used-port records empty, every port bindable. -/
def envAllFree : PortEnv :=
  { usedPorts := [], bindable := fun _ => true }

/-- A creation request whose only content is a user-supplied external port 80. -/
def cfg80 : ConfigureAppRequest :=
  { name := "", dockerfilePath := "", buildContext := "", internalPort := 0,
    externalPort := 80, env := [], buildArgs := [], volumes := [] }

/-- A clone of repository `demo` with no manifest. -/
def clone0 : CloneResult :=
  { slug := "demo", name := "demo", description := "", hasDockerfile := true,
    dockerfilePath := "./Dockerfile", manifest := none, suggestedPort := 80 }

/-- The external port of a creation outcome, when creation succeeded. -/
def createdPort (r : Except String App) : Option Nat :=
  Option.map App.externalPort r.toOption

/-! ### Characterisation of the scan -/

theorem scanFrom_some_iff (env : PortEnv) :
    ∀ fuel lo p, scanFrom env lo fuel = some p ↔
      (lo ≤ p ∧ p < lo + fuel ∧ IsPortAvailable env p = true ∧
        ∀ q, lo ≤ q → q < p → IsPortAvailable env q = false) := by
  intro fuel
  induction fuel with
  | zero =>
    intro lo p
    constructor
    · intro h
      simp [scanFrom] at h
    · rintro ⟨h1, h2, -⟩
      omega
  | succ n ih =>
    intro lo p
    simp only [scanFrom]
    by_cases hc : env.usedPorts.contains lo = true
    · have hfreelo : IsPortAvailable env lo = false := by
        simp only [IsPortAvailable, hc, Bool.not_true, Bool.false_and]
      rw [if_pos hc, ih]
      constructor
      · rintro ⟨h1, h2, h3, h4⟩
        refine ⟨by omega, by omega, h3, ?_⟩
        intro q hq1 hq2
        rcases Nat.eq_or_lt_of_le hq1 with rfl | hlt
        · exact hfreelo
        · exact h4 q hlt hq2
      · rintro ⟨h1, h2, h3, h4⟩
        have hne : lo ≠ p := by
          rintro rfl
          rw [hfreelo] at h3
          exact Bool.false_ne_true h3
        refine ⟨by omega, by omega, h3, ?_⟩
        intro q hq1 hq2
        exact h4 q (by omega) hq2
    · have hc' : env.usedPorts.contains lo = false := by
        simpa using hc
      by_cases hb : isPortInUse env lo = true
      · have hfreelo : IsPortAvailable env lo = false := by
          simp only [IsPortAvailable, hb, Bool.not_true, Bool.and_false]
        rw [if_neg hc, if_neg (by simp [hb]), ih]
        constructor
        · rintro ⟨h1, h2, h3, h4⟩
          refine ⟨by omega, by omega, h3, ?_⟩
          intro q hq1 hq2
          rcases Nat.eq_or_lt_of_le hq1 with rfl | hlt
          · exact hfreelo
          · exact h4 q hlt hq2
        · rintro ⟨h1, h2, h3, h4⟩
          have hne : lo ≠ p := by
            rintro rfl
            rw [hfreelo] at h3
            exact Bool.false_ne_true h3
          refine ⟨by omega, by omega, h3, ?_⟩
          intro q hq1 hq2
          exact h4 q (by omega) hq2
      · have hb' : isPortInUse env lo = false := by
          simpa using hb
        have hfreelo : IsPortAvailable env lo = true := by
          simp only [IsPortAvailable, hc', hb', Bool.not_false, Bool.and_self]
        rw [if_neg hc, if_pos (by simp [hb'])]
        constructor
        · intro h
          have hp : lo = p := by
            simpa using h
          subst hp
          exact ⟨le_refl _, by omega, hfreelo, fun q hq1 hq2 => by omega⟩
        · rintro ⟨h1, h2, h3, h4⟩
          rcases Nat.eq_or_lt_of_le h1 with rfl | hlt
          · rfl
          · have := h4 lo (le_refl _) hlt
            rw [hfreelo] at this
            exact absurd this (by simp)

theorem scanFrom_none_iff (env : PortEnv) :
    ∀ fuel lo, scanFrom env lo fuel = none ↔
      ∀ q, lo ≤ q → q < lo + fuel → IsPortAvailable env q = false := by
  intro fuel
  induction fuel with
  | zero =>
    intro lo
    constructor
    · intro _ q h1 h2
      omega
    · intro _
      simp [scanFrom]
  | succ n ih =>
    intro lo
    simp only [scanFrom]
    by_cases hc : env.usedPorts.contains lo = true
    · have hfreelo : IsPortAvailable env lo = false := by
        simp only [IsPortAvailable, hc, Bool.not_true, Bool.false_and]
      rw [if_pos hc, ih]
      constructor
      · intro h q hq1 hq2
        rcases Nat.eq_or_lt_of_le hq1 with rfl | hlt
        · exact hfreelo
        · exact h q hlt (by omega)
      · intro h q hq1 hq2
        exact h q (by omega) (by omega)
    · have hc' : env.usedPorts.contains lo = false := by
        simpa using hc
      by_cases hb : isPortInUse env lo = true
      · have hfreelo : IsPortAvailable env lo = false := by
          simp only [IsPortAvailable, hb, Bool.not_true, Bool.and_false]
        rw [if_neg hc, if_neg (by simp [hb]), ih]
        constructor
        · intro h q hq1 hq2
          rcases Nat.eq_or_lt_of_le hq1 with rfl | hlt
          · exact hfreelo
          · exact h q hlt (by omega)
        · intro h q hq1 hq2
          exact h q (by omega) (by omega)
      · have hb' : isPortInUse env lo = false := by
          simpa using hb
        have hfreelo : IsPortAvailable env lo = true := by
          simp only [IsPortAvailable, hc', hb', Bool.not_false, Bool.and_self]
        rw [if_neg hc, if_pos (by simp [hb'])]
        constructor
        · intro h
          exact absurd h (by simp)
        · intro h
          have := h lo (le_refl _) (by omega)
          rw [hfreelo] at this
          exact absurd this (by simp)

theorem scanPorts_some_iff (env : PortEnv) (lo hi p : Nat) :
    scanPorts env lo hi = some p ↔
      (lo ≤ p ∧ p ≤ hi ∧ IsPortAvailable env p = true ∧
        ∀ q, lo ≤ q → q < p → IsPortAvailable env q = false) := by
  rw [scanPorts, scanFrom_some_iff]
  constructor
  · rintro ⟨h1, h2, h3, h4⟩
    exact ⟨h1, by omega, h3, h4⟩
  · rintro ⟨h1, h2, h3, h4⟩
    exact ⟨h1, by omega, h3, h4⟩

theorem scanPorts_none_iff (env : PortEnv) (lo hi : Nat) :
    scanPorts env lo hi = none ↔
      ∀ q, lo ≤ q → q ≤ hi → IsPortAvailable env q = false := by
  rw [scanPorts, scanFrom_none_iff]
  constructor
  · intro h q h1 h2
    exact h q h1 (by omega)
  · intro h q h1 h2
    exact h q h1 (by omega)

/-- A healthy runtime: every create and start succeeds. -/
def dockerHealthy : Docker :=
  { getContainerByName := fun _ => none
    stopOk := fun _ => true
    createResult := fun n => Except.ok ("c-" ++ n)
    startOk := fun _ => true
    getContainerStatus := fun _ => some "running"
    getImageSize := fun _ => some 1000 }

/-- Used-port records holding 13001, every port bindable. -/
def envPortTaken : PortEnv :=
  { usedPorts := [13001], bindable := fun _ => true }

/-- A creation request with no port override. -/
def cfgDefault : ConfigureAppRequest :=
  { name := "", dockerfilePath := "", buildContext := "", internalPort := 0,
    externalPort := 0, env := [], buildArgs := [], volumes := [] }

/-! ## Claims -/

/-- C1: counterexample. With an empty used-port record set, every port
bindable, range `[13001,13002]`, and the first result NOT persisted between
the calls, a second `allocate()` call returns 13001 again (the probe closes
its listener immediately, so nothing distinguishes the two calls), not 13002,
and a third call does not fail: the claim's sequential scenario is false as
stated. -/
theorem allocate_no_persist_counterexample :
    scanPorts { usedPorts := [], bindable := fun _ => true } 13001 13002 = some 13001 ∧
    scanPorts { usedPorts := [], bindable := fun _ => true } 13001 13002 ≠ some 13002 ∧
    scanPorts { usedPorts := [], bindable := fun _ => true } 13001 13002 ≠ none := by
  refine ⟨by decide, by decide, by decide⟩

/-- C1 (amended): `allocate()` returns the smallest in-range port that is both
absent from the used-port records and bindable, and errors exactly when no
such port exists; the 2-port scenario returns 13001, then — once the first
result has been persisted into the used-port records — 13002, and fails once
both ports are recorded. -/
theorem allocate_spec :
    (∀ env lo hi p, (scanPorts env lo hi = some p ↔
        (lo ≤ p ∧ p ≤ hi ∧ IsPortAvailable env p = true ∧
          ∀ q, lo ≤ q → q < p → IsPortAvailable env q = false)) ∧
      (scanPorts env lo hi = none ↔
        ∀ q, lo ≤ q → q ≤ hi → IsPortAvailable env q = false)) ∧
    (∀ env, AllocatePort env = scanPorts env PortRangeStart PortRangeEnd) ∧
    scanPorts { usedPorts := [], bindable := fun _ => true } 13001 13002 = some 13001 ∧
    scanPorts { usedPorts := [13001], bindable := fun _ => true } 13001 13002 = some 13002 ∧
    scanPorts { usedPorts := [13001, 13002], bindable := fun _ => true } 13001 13002 = none := by
  refine ⟨fun env lo hi p => ⟨scanPorts_some_iff env lo hi p, scanPorts_none_iff env lo hi⟩,
    fun env => rfl, by decide, by decide, by decide⟩

/-- C2: at most one build runs system-wide. A `BuildApp` call made while the
running flag is set fails immediately with the in-progress conflict, invokes
no builder and leaves the state unchanged; a call made while the flag is clear
always leaves the flag clear again on return (success or failure), so a
subsequent call (here with a creatable log file) proceeds to invoke the
builder. -/
theorem build_exclusivity :
    ∀ (s : BuildSvc) (logOk1 logOk2 : Bool) (b1 b2 : Except String Unit),
      (s.building = true →
        svcBuildApp s logOk1 b1 =
          { res := Except.error "another build is in progress", svc := s,
            invoked := false }) ∧
      (s.building = false → (svcBuildApp s logOk1 b1).svc.building = false) ∧
      (s.building = false → logOk2 = true →
        (svcBuildApp (svcBuildApp s logOk1 b1).svc logOk2 b2).invoked = true) := by
  intro s logOk1 logOk2 b1 b2
  rcases s with ⟨sb⟩
  cases sb <;> cases logOk1 <;> cases logOk2 <;> cases b1 <;> cases b2 <;>
    simp [svcBuildApp]

/-- C4: a bare `AppManager.BuildApp` that succeeds persists status `stopped`
(never `running`, whatever the prior status) with the success flag set; one
that fails persists `build-failed` with the success flag cleared; both
branches persist the last-build timestamp and duration, and the returned row
is the last persisted one. -/
theorem bare_build_lands_stopped :
    ∀ (d : Docker) (row : App) (s : BuildSvc) (logOk : Bool)
      (builder : Except String Unit) (startTime : Nat) (durStr : String) (now : Nat),
      ((mgrBuildApp d row s logOk builder startTime durStr now).res = Except.ok () →
        (mgrBuildApp d row s logOk builder startTime durStr now).row.status =
          AppStatus.stopped ∧
        (mgrBuildApp d row s logOk builder startTime durStr now).row.lastBuildSuccess =
          true) ∧
      (∀ e, (mgrBuildApp d row s logOk builder startTime durStr now).res =
          Except.error e →
        (mgrBuildApp d row s logOk builder startTime durStr now).row.status =
          AppStatus.buildFailed ∧
        (mgrBuildApp d row s logOk builder startTime durStr now).row.lastBuildSuccess =
          false) ∧
      (mgrBuildApp d row s logOk builder startTime durStr now).row.lastBuild =
        some startTime ∧
      (mgrBuildApp d row s logOk builder startTime durStr now).row.lastBuildDuration =
        durStr ∧
      (mgrBuildApp d row s logOk builder startTime durStr now).trace.getLast? =
        some (mgrBuildApp d row s logOk builder startTime durStr now).row := by
  intro d row s logOk builder startTime durStr now
  rcases s with ⟨sb⟩
  cases sb <;> cases logOk <;> cases builder <;>
    simp [mgrBuildApp, svcBuildApp, dbUpdateApp]
  cases d.getImageSize row.imageName <;> simp

/-- C6: counterexample. `AppManager.BuildApp` performs no source-status check:
for an app whose status is `error` (not among `stopped`, `build-failed`,
`running`), a build request still persists status `building` as its first
database write. -/
theorem build_from_error_counterexample :
    ({ app0 with status := AppStatus.error } : App).status = AppStatus.error ∧
    Option.map App.status
      (mgrBuildApp dockerIdle { app0 with status := AppStatus.error }
        { building := false } true (Except.ok ()) 1 "1s" 2).trace.head? =
      some AppStatus.building := by
  refine ⟨rfl, by decide⟩

/-- C6 (amended): the build operation is taken from EVERY source status —
for any app, whatever its current status (including `building`, `starting`
and `error`), a build request's first persisted write transitions the app to
`building`. -/
theorem build_transitions_from_any_status :
    ∀ (d : Docker) (row : App) (s : BuildSvc) (logOk : Bool)
      (builder : Except String Unit) (startTime : Nat) (durStr : String) (now : Nat),
      (mgrBuildApp d row s logOk builder startTime durStr now).trace.head? =
        some (dbUpdateApp row { row with status := AppStatus.building } now) ∧
      Option.map App.status
        (mgrBuildApp d row s logOk builder startTime durStr now).trace.head? =
        some AppStatus.building := by
  intro d row s logOk builder startTime durStr now
  rcases s with ⟨sb⟩
  cases sb <;> cases logOk <;> cases builder <;>
    simp [mgrBuildApp, svcBuildApp, dbUpdateApp]

/-- C8: stop is idempotent and treats a missing container as success — for
every existing app (any container id, any runtime behaviour, including no
live container at all) `StopApp` returns success and persists status
`stopped`. -/
theorem stop_idempotent :
    ∀ (d : Docker) (row : App) (now : Nat),
      (StopApp d row now).res = Except.ok () ∧
      (StopApp d row now).row.status = AppStatus.stopped := by
  intro d row now
  exact ⟨rfl, rfl⟩

/-- C10: frame property of stop — the persisted row after `StopApp` is the
input row with exactly the status field set to `stopped` and the persistence
layer's `updated_at` refreshed; in particular the container id (and every
other field) is left unchanged. -/
theorem stop_frame :
    ∀ (d : Docker) (row : App) (now : Nat),
      (StopApp d row now).row =
        { row with status := AppStatus.stopped, updatedAt := now } ∧
      (StopApp d row now).row.containerID = row.containerID ∧
      (StopApp d row now).row.externalPort = row.externalPort ∧
      (StopApp d row now).row.imageName = row.imageName ∧
      (StopApp d row now).row.lastBuild = row.lastBuild ∧
      (StopApp d row now).row.lastBuildSuccess = row.lastBuildSuccess := by
  intro d row now
  exact ⟨rfl, rfl, rfl, rfl, rfl, rfl⟩

/-! ## Helper lemmas -/

theorem adoptContainerID_status (d : Docker) (row : App) :
    (adoptContainerID d row).status = row.status := by
  unfold adoptContainerID
  split
  · cases d.getContainerByName row.containerName <;> rfl
  · rfl

theorem adoptContainerID_of_nonempty (d : Docker) (row : App)
    (h : row.containerID ≠ "") : adoptContainerID d row = row := by
  unfold adoptContainerID
  rw [if_neg (fun hc => h hc.1)]

theorem isPortAvailable_spec (env : PortEnv) (p : Nat)
    (h : IsPortAvailable env p = true) :
    env.usedPorts.contains p = false ∧ env.bindable p = true := by
  simp only [IsPortAvailable, isPortInUse, Bool.not_not, Bool.and_eq_true,
    Bool.not_eq_true'] at h
  exact h

theorem findNextAvailable_mem (env : PortEnv) (pref p : Nat)
    (h : FindNextAvailable env pref = some p) :
    PortRangeStart ≤ p ∧ p ≤ PortRangeEnd ∧ IsPortAvailable env p = true := by
  unfold FindNextAvailable at h
  by_cases hr : PortRangeStart ≤ pref ∧ pref ≤ PortRangeEnd
  · rw [if_pos hr] at h
    by_cases hav : (!env.usedPorts.contains pref && !(isPortInUse env pref)) = true
    · rw [if_pos hav] at h
      injection h with h
      subst h
      exact ⟨hr.1, hr.2, hav⟩
    · rw [if_neg hav] at h
      have hs := (scanPorts_some_iff env PortRangeStart PortRangeEnd p).mp h
      exact ⟨hs.1, hs.2.1, hs.2.2.1⟩
  · rw [if_neg hr] at h
    have hs := (scanPorts_some_iff env PortRangeStart PortRangeEnd p).mp h
    exact ⟨hs.1, hs.2.1, hs.2.2.1⟩

theorem startCreatePhase_port (d : Docker) (row a1 : App) (now : Nat)
    (acts : List DockerAction) :
    (startCreatePhase d row a1 now acts).row.externalPort = a1.externalPort := by
  cases hc : d.createResult a1.containerName with
  | error e => simp [startCreatePhase, hc, dbUpdateApp]
  | ok cid =>
    by_cases h : d.startOk cid = true <;>
      simp [startCreatePhase, hc, h, dbUpdateApp]

/-! ## Claims (continued) -/

/-- C3: counterexample. An app persisted with status `running`, an empty
container id and container name `demo`, reconciled against a runtime holding
a live running container named `demo`, ends with status `running` (the
routine adopts the container's id by name first) — not `stopped` as the
claim's no-container-id clause requires. -/
theorem reconcile_adoption_counterexample :
    ({ app0 with status := AppStatus.running } : App).containerID = "" ∧
    ({ app0 with status := AppStatus.running } : App).status = AppStatus.running ∧
    (reconcileApp dockerAdopt { app0 with status := AppStatus.running } 5).status =
      AppStatus.running ∧
    AppStatus.running ≠ AppStatus.stopped := by
  refine ⟨rfl, rfl, by decide, by decide⟩

/-- C3 (amended): after one reconciliation pass, for every persisted app: a
non-empty recorded container id whose status query fails yields status
`stopped` with an empty container id; a container id known after the
name-adoption step whose query reports `running` (resp. not `running`) yields
status `running` (resp. `stopped`); and an app with no container id even
after the name-adoption step whose persisted status was `running` or
`starting` yields status `stopped`. -/
theorem reconcile_postcondition :
    ∀ (d : Docker) (rows : List App) (now : Nat) (row : App),
      ReconcileStates d rows now = rows.map (fun r => reconcileApp d r now) ∧
      (row.containerID ≠ "" → d.getContainerStatus row.containerID = none →
        (reconcileApp d row now).status = AppStatus.stopped ∧
        (reconcileApp d row now).containerID = "") ∧
      (∀ st, (adoptContainerID d row).containerID ≠ "" →
        d.getContainerStatus (adoptContainerID d row).containerID = some st →
        (reconcileApp d row now).status =
          (if st = "running" then AppStatus.running else AppStatus.stopped)) ∧
      ((adoptContainerID d row).containerID = "" →
        (row.status = AppStatus.running ∨ row.status = AppStatus.starting) →
        (reconcileApp d row now).status = AppStatus.stopped) := by
  intro d rows now row
  refine ⟨rfl, ?_, ?_, ?_⟩
  · intro hid hq
    have ha := adoptContainerID_of_nonempty d row hid
    simp only [reconcileApp, ha, if_pos hid, hq]
    exact ⟨rfl, rfl⟩
  · intro st hid hq
    simp only [reconcileApp, if_pos hid, hq]
    by_cases hst : st = "running" <;> simp [hst, dbUpdateApp]
  · intro hid hst
    have hns : ¬ (adoptContainerID d row).containerID ≠ "" := fun hcc => hcc hid
    have hst' : (adoptContainerID d row).status = AppStatus.running ∨
        (adoptContainerID d row).status = AppStatus.starting := by
      rw [adoptContainerID_status]
      exact hst
    simp only [reconcileApp, if_neg hns, if_pos hst']
    rfl

/-- C5: counterexample. Creating an app with user-supplied external port 80
(empty used-port records, every port bindable) succeeds and records external
port 80, which lies outside the managed range [13001,13999]: the override is
validated only for availability, never for range. -/
theorem create_port_override_counterexample :
    createdPort (CreateApp envAllFree clone0 cfg80
      "https://example.com/demo.git" "main" "u1" "abcd1234" true 0) = some 80 ∧
    80 < PortRangeStart := by
  exact ⟨by decide, by decide⟩

/-- C5 (amended): a successfully created app's external port never collides
with a recorded port and is bindable; it lies in the managed range whenever
it came from the allocator (no user override, or an override that failed the
availability check); and a start-time reassignment (configured port no longer
available) always lands on an in-range, unrecorded, bindable port, which is
the port the start operation persists. A user-supplied override is checked
only for availability, not range. -/
theorem port_invariant :
    ∀ (env : PortEnv) (cr : CloneResult) (cfg : ConfigureAppRequest)
      (repoURL branch uuid commit : String) (dbOk : Bool) (now : Nat)
      (d : Docker) (row : App) (startNow : Nat) (a : App),
      (CreateApp env cr cfg repoURL branch uuid commit dbOk now = Except.ok a →
        env.usedPorts.contains a.externalPort = false ∧
        env.bindable a.externalPort = true ∧
        ((cfg.externalPort = 0 ∨ IsPortAvailable env cfg.externalPort = false) →
          PortRangeStart ≤ a.externalPort ∧ a.externalPort ≤ PortRangeEnd)) ∧
      (IsPortAvailable env row.externalPort = false →
        ∀ p, FindNextAvailable env row.externalPort = some p →
          (StartApp d env row startNow).row.externalPort = p ∧
          PortRangeStart ≤ p ∧ p ≤ PortRangeEnd ∧
          env.usedPorts.contains p = false ∧ env.bindable p = true) := by
  intro env cr cfg repoURL branch uuid commit dbOk now d row startNow a
  constructor
  · intro h
    unfold CreateApp at h
    cases hA : AllocatePort env with
    | none =>
      rw [hA] at h
      exact Except.noConfusion h
    | some port0 =>
      rw [hA] at h
      cases dbOk with
      | false => simp at h
      | true =>
        simp only [if_pos] at h
        have ha := Except.ok.inj h
        subst ha
        have hp0 := (scanPorts_some_iff env PortRangeStart PortRangeEnd port0).mp hA
        have hp0av := isPortAvailable_spec env port0 hp0.2.2.1
        show env.usedPorts.contains (chosenPort env cfg port0) = false ∧
          env.bindable (chosenPort env cfg port0) = true ∧
          ((cfg.externalPort = 0 ∨ IsPortAvailable env cfg.externalPort = false) →
            PortRangeStart ≤ chosenPort env cfg port0 ∧
            chosenPort env cfg port0 ≤ PortRangeEnd)
        unfold chosenPort
        by_cases h1 : 0 < cfg.externalPort
        · by_cases h2 : IsPortAvailable env cfg.externalPort = true
          · have h2av := isPortAvailable_spec env cfg.externalPort h2
            rw [if_pos h1, if_pos h2]
            refine ⟨h2av.1, h2av.2, ?_⟩
            rintro (hz | hfalse)
            · omega
            · rw [h2] at hfalse
              exact Bool.noConfusion hfalse
          · rw [if_pos h1, if_neg h2]
            exact ⟨hp0av.1, hp0av.2, fun _ => ⟨hp0.1, hp0.2.1⟩⟩
        · rw [if_neg h1]
          exact ⟨hp0av.1, hp0av.2, fun _ => ⟨hp0.1, hp0.2.1⟩⟩
  · intro hna p hf
    have hm := findNextAvailable_mem env row.externalPort p hf
    have hav := isPortAvailable_spec env p hm.2.2
    have hna' : ¬ IsPortAvailable env row.externalPort = true := by
      rw [hna]
      exact Bool.noConfusion
    refine ⟨?_, hm.1, hm.2.1, hav.1, hav.2⟩
    simp only [StartApp, if_neg hna', hf]
    exact startCreatePhase_port d row { row with externalPort := p } startNow _

/-- C9: the commit-truncation step of `PullAndRebuild` (`commit[:8]`) is
out of bounds exactly when the pull succeeds with a commit string shorter
than 8 characters: the operation panics (returns `none` in the embedding)
iff the returned hash has length < 8, and is well-defined under the
length-≥-8 precondition. -/
theorem commit_truncation_bounds :
    ∀ (d : Docker) (env : PortEnv) (row : App) (s : BuildSvc) (logOk : Bool)
      (builder : Except String Unit) (startTime : Nat) (durStr : String)
      (now : Nat) (c : String),
      (PullAndRebuild d env row s (Except.ok c) logOk builder startTime durStr now
          = none ↔ c.length < 8) := by
  intro d env row s logOk builder startTime durStr now c
  by_cases hlen : c.length < 8
  · simp only [PullAndRebuild, if_pos hlen]
    simpa using hlen
  · constructor
    · intro h
      simp only [PullAndRebuild, if_neg hlen] at h
      split at h
      · exact Option.noConfusion h
      · split at h <;> exact Option.noConfusion h
    · intro h
      exact absurd h hlen

theorem stopApp_acts_only_stops (d : Docker) (row : App) (now : Nat) :
    ∀ a ∈ (StopApp d row now).acts, ∃ i, a = DockerAction.stopContainer i := by
  intro a ha
  simp only [StopApp] at ha
  by_cases h1 : row.containerID ≠ ""
  · rw [if_pos h1] at ha
    by_cases h2 : d.stopOk row.containerID = true
    · rw [if_pos h2] at ha
      simp only [List.mem_singleton] at ha
      exact ⟨_, ha⟩
    · rw [if_neg h2] at ha
      cases hn : d.getContainerByName row.containerName <;> rw [hn] at ha
      · simp only [List.mem_singleton] at ha
        exact ⟨_, ha⟩
      · simp only [List.mem_cons, List.mem_singleton, List.not_mem_nil,
          or_false] at ha
        rcases ha with ha | ha
        · exact ⟨_, ha⟩
        · exact ⟨_, ha⟩
  · rw [if_neg h1] at ha
    simp at ha

theorem preStop_acts_only_stops (d : Docker) (row : App) (now : Nat) :
    ∀ a ∈ (if row.status = AppStatus.running then StopApp d row now
      else { res := Except.ok (), row := row, acts := [] } : OpResult).acts,
      ∃ i, a = DockerAction.stopContainer i := by
  by_cases hrun : row.status = AppStatus.running
  · rw [if_pos hrun]
    exact stopApp_acts_only_stops d row now
  · rw [if_neg hrun]
    intro a ha
    simp at ha

theorem only_stops_no_create (acts : List DockerAction)
    (h : ∀ a ∈ acts, ∃ i, a = DockerAction.stopContainer i) :
    (∀ n, DockerAction.createContainer n ∉ acts) ∧
    (∀ i, DockerAction.startContainer i ∉ acts) := by
  constructor <;> intro x hx <;> rcases h _ hx with ⟨i, hi⟩ <;>
    exact DockerAction.noConfusion hi

theorem mgrBuildApp_ok_oracles (d : Docker) (row : App) (s : BuildSvc)
    (logOk : Bool) (builder : Except String Unit) (t : Nat) (dur : String)
    (now : Nat) (u : Unit)
    (h : (mgrBuildApp d row s logOk builder t dur now).res = Except.ok u) :
    s.building = false ∧ logOk = true ∧ ∀ m, builder ≠ Except.error m := by
  rcases s with ⟨sb⟩
  cases sb <;> cases logOk <;> cases builder <;>
    simp [mgrBuildApp, svcBuildApp] at h ⊢

/-- C7: `pullAndRebuild` on a `running` app whose pull fails: the container
is stopped first (the pre-op stop persists status `stopped` and performs only
stop actions), no build runs, no restart is attempted, and the pull error
propagates; in general, when the pre-operation status is not `running` no
runtime action occurs at all, and whenever the pull or the build stage fails
(or the pipeline is busy) the chain performs no container create or start. -/
theorem pull_failure_aborts :
    ∀ (d : Docker) (env : PortEnv) (row : App) (s : BuildSvc)
      (pull : Except String String) (logOk : Bool) (builder : Except String Unit)
      (startTime : Nat) (durStr : String) (now : Nat),
      (∀ msg, row.status = AppStatus.running → pull = Except.error msg →
        PullAndRebuild d env row s pull logOk builder startTime durStr now =
          some { res := Except.error ("failed to pull repo: " ++ msg),
                 row := (StopApp d row now).row, svc := s, invoked := false,
                 acts := (StopApp d row now).acts } ∧
        (StopApp d row now).row.status = AppStatus.stopped ∧
        (∀ a ∈ (StopApp d row now).acts, ∃ i, a = DockerAction.stopContainer i)) ∧
      (∀ pr, PullAndRebuild d env row s pull logOk builder startTime durStr now =
          some pr →
        (row.status ≠ AppStatus.running → pr.acts = []) ∧
        ((∃ m, pull = Except.error m) → pr.invoked = false) ∧
        (((∃ m, pull = Except.error m) ∨ s.building = true ∨ logOk = false ∨
            (∃ m, builder = Except.error m)) →
          (∀ n, DockerAction.createContainer n ∉ pr.acts) ∧
          (∀ i, DockerAction.startContainer i ∉ pr.acts))) := by
  intro d env row s pull logOk builder startTime durStr now
  constructor
  · intro msg hrun hpull
    subst hpull
    refine ⟨?_, rfl, stopApp_acts_only_stops d row now⟩
    simp only [PullAndRebuild, if_pos hrun]
  · intro pr hpr
    cases pull with
    | error m =>
      by_cases hrun : row.status = AppStatus.running
      · simp only [PullAndRebuild, if_pos hrun] at hpr
        obtain rfl := Option.some.inj hpr
        refine ⟨fun hne => absurd hrun hne, fun _ => rfl, fun _ => ?_⟩
        exact only_stops_no_create _ (stopApp_acts_only_stops d row now)
      · simp only [PullAndRebuild, if_neg hrun] at hpr
        obtain rfl := Option.some.inj hpr
        refine ⟨fun _ => rfl, fun _ => rfl, fun _ => ?_⟩
        constructor <;> intro x hx <;> simp at hx
    | ok c =>
      by_cases hlen : c.length < 8
      · simp only [PullAndRebuild, if_pos hlen] at hpr
        exact Option.noConfusion hpr
      · simp only [PullAndRebuild, if_neg hlen] at hpr
        split at hpr
        · rename_i e heq
          obtain rfl := Option.some.inj hpr
          refine ⟨?_, ?_, ?_⟩
          · intro hne
            show (if row.status = AppStatus.running then StopApp d row now
              else { res := Except.ok (), row := row, acts := [] } : OpResult).acts = []
            rw [if_neg hne]
          · rintro ⟨m, hm⟩
            exact Except.noConfusion hm
          · intro _
            exact only_stops_no_create _ (preStop_acts_only_stops d row now)
        · rename_i u heq
          by_cases hrun : row.status = AppStatus.running
          · rw [if_pos hrun] at hpr
            obtain rfl := Option.some.inj hpr
            refine ⟨fun hne => absurd hrun hne, ?_, ?_⟩
            · rintro ⟨m, hm⟩
              exact Except.noConfusion hm
            · intro hfail
              have hg := mgrBuildApp_ok_oracles d _ s logOk builder
                startTime durStr now u heq
              rcases hfail with ⟨m, hm⟩ | hb | hl | ⟨m, hm⟩
              · exact Except.noConfusion hm
              · rw [hg.1] at hb
                exact Bool.noConfusion hb
              · rw [hg.2.1] at hl
                exact Bool.noConfusion hl
              · exact absurd hm (hg.2.2 m)
          · rw [if_neg hrun] at hpr
            obtain rfl := Option.some.inj hpr
            refine ⟨?_, ?_, fun _ => ?_⟩
            · intro _
              show (if row.status = AppStatus.running then StopApp d row now
                else { res := Except.ok (), row := row, acts := [] } : OpResult).acts = []
              rw [if_neg hrun]
            · rintro ⟨m, hm⟩
              exact Except.noConfusion hm
            · exact only_stops_no_create _ (preStop_acts_only_stops d row now)

/-! ## Sanity evaluations: the positive paths of the embedding are live
(these closed facts evaluate the definitions end to end on concrete
inputs and are independent of the claim theorems above). -/

theorem sanity_pull_rebuild_full_chain :
    Option.map App.status (Option.map PullResult.row
      (PullAndRebuild dockerHealthy envAllFree
        { app0 with status := AppStatus.running, containerID := "old" }
        { building := false } (Except.ok "aabbccdd") true (Except.ok ())
        1 "1s" 2)) = some AppStatus.running := by
  decide

theorem sanity_start_reassigns_taken_port :
    (StartApp dockerHealthy envPortTaken app0 7).row.externalPort = 13002 ∧
    (StartApp dockerHealthy envPortTaken app0 7).row.status =
      AppStatus.running := by
  refine ⟨by decide, by decide⟩

theorem sanity_reconcile_dead_container :
    (reconcileApp dockerIdle
      { app0 with status := AppStatus.running, containerID := "dead" } 3).status =
      AppStatus.stopped ∧
    (reconcileApp dockerIdle
      { app0 with status := AppStatus.running, containerID := "dead" } 3).containerID =
      "" := by
  refine ⟨by decide, by decide⟩

theorem sanity_create_default_port :
    createdPort (CreateApp envAllFree clone0 cfgDefault
      "https://example.com/demo.git" "main" "u1" "abcd1234" true 0) =
      some 13001 := by
  decide

theorem sanity_stop_with_stale_id :
    (StopApp dockerIdle { app0 with containerID := "stale" } 4).res =
      Except.ok () ∧
    (StopApp dockerIdle { app0 with containerID := "stale" } 4).row.status =
      AppStatus.stopped ∧
    (StopApp dockerIdle { app0 with containerID := "stale" } 4).row.containerID =
      "stale" := by
  refine ⟨rfl, rfl, rfl⟩

end NasController
